import Mathlib

/-!
Shallow embedding of the resumable IMPPAT scraping pipeline
(`src/process_data_with_resume.py`, `src/rule_of_5_extract.py`) and proofs
of the spec's testable properties against it.
-/

namespace Imppat

/-! ## Classifier (`scrape_admet_properties`, lines 110-117)

Given the two extracted fields (Blood Brain Barrier permeation and
Gastrointestinal absorption), the source applies:
`if bbb == "No" and gi == "Low": return 0
 elif bbb == "Yes" and gi == "High": return 1
 else: return 0`. -/

def classify_admet (bbb_permeation gi_absorption : String) : Nat :=
  if bbb_permeation = "No" ∧ gi_absorption = "Low" then 0
  else if bbb_permeation = "Yes" ∧ gi_absorption = "High" then 1
  else 0

/-! ## Rule-of-5 extractor (`rule_of_5_extract.py`, `extract_rule_of_5`)

The HTML table is abstracted to its rows, each row to the list of the
stripped texts of its `td` cells.  The source scans the rows:
`if len(tds) >= 3 and "Lipinski’s rule of 5" in tds[0]: value = tds[2];
 if value.lower() == "passed": return 1
 elif value.lower() == "failed": return 0` and returns `None` when the
scan falls through. -/

def lipinskiLabel : String := "Lipinski’s rule of 5"

/-- Python's `pat in s` on one candidate position: does `pat` occur at the
head of `s`? -/
def hasPrefixChars : List Char → List Char → Bool
  | _, [] => true
  | [], _ :: _ => false
  | c :: cs, p :: ps => (c = p) && hasPrefixChars cs ps

/-- Python's `pat in s` substring test, scanning every start position. -/
def containsChars (pat : List Char) : List Char → Bool
  | [] => hasPrefixChars [] pat
  | c :: cs => hasPrefixChars (c :: cs) pat || containsChars pat cs

/-- Python's `pat in s` on strings. -/
def strContains (s pat : String) : Bool :=
  containsChars pat.data s.data

/-- Python's `s.lower()`, character by character. -/
def strLower (s : String) : String :=
  ⟨s.data.map Char.toLower⟩

def extract_rule_of_5 : List (List String) → Option Nat
  | [] => none
  | tds :: rest =>
    if 3 ≤ tds.length ∧ strContains (tds.getD 0 "") lipinskiLabel then
      let value := tds.getD 2 ""
      if strLower value = "passed" then some 1
      else if strLower value = "failed" then some 0
      else extract_rule_of_5 rest
    else extract_rule_of_5 rest

/-! ## Result Writer (`write_results_to_csv`, lines 126-149)

A cell of the output CSV is either the Python int result (`Sum.inl`) or
the Python string `"Error"` (`Sum.inr`); the two are distinct values, as
in the source where one is an `int` and the other a `str`.
The source computes, for each `i, compound_id in enumerate(ids)`:
`result = results[i] if i < len(results) and results[i] is not None else "Error"`. -/

def resultCell (results : List (Option Nat)) (i : Nat) : Nat ⊕ String :=
  if i < results.length then
    match results.getD i none with
    | some r => Sum.inl r
    | none => Sum.inr "Error"
  else Sum.inr "Error"

def csvDataRows (ids : List String) (results : List (Option Nat)) :
    List (String × (Nat ⊕ String)) :=
  ids.enum.map (fun p => (p.2, resultCell results p.1))

/-- The whole of `write_results_to_csv`, with the file-system effects made
explicit: whether an artifact already exists at the output path, and
whether the backup copy (`shutil.copy2`) or the write itself raises.  In
the source, backup and write sit inside one `try`; any exception reaches
`except ... sys.exit(1)`. -/
structure WriterEnv where
  outputExists : Bool
  backupRaises : Bool
  writeRaises : Bool

structure WriterOutcome where
  backupMade : Bool
  written : Option (List (String × (Nat ⊕ String)))
  exitCode : Option Nat
  deriving Repr, DecidableEq

def write_results_to_csv (env : WriterEnv) (ids : List String)
    (results : List (Option Nat)) : WriterOutcome :=
  if env.outputExists then
    if env.backupRaises then ⟨false, none, some 1⟩
    else if env.writeRaises then ⟨true, none, some 1⟩
    else ⟨true, some (csvDataRows ids results), none⟩
  else
    if env.writeRaises then ⟨false, none, some 1⟩
    else ⟨false, some (csvDataRows ids results), none⟩

/-! ## Checkpoint Store (`save_progress` lines 42-56, `load_progress` lines 29-40)

`save_progress` serializes a dict with keys `timestamp`, `total_compounds`,
`processed_count`, `ids`, `results`, `current_index`.  A checkpoint file on
disk may be missing, unreadable, hold malformed JSON, or hold a JSON object
in which any of those keys may be absent; `ProgressJson` models the JSON
object with every field optional, `FileContent` the file states. -/

structure ProgressJson where
  timestamp : Option String
  total_compounds : Option Nat
  processed_count : Option Int
  ids : Option (List String)
  results : Option (List (Option Nat))
  current_index : Option Int
  deriving Repr, DecidableEq

inductive FileContent where
  | missing
  | unreadable
  | malformedJson
  | json (p : ProgressJson)
  deriving Repr, DecidableEq

/-- `save_progress(progress_file, ids, results, current_index)`: the JSON
object written to the progress file. -/
def save_progress (ts : String) (ids : List String)
    (results : List (Option Nat)) (current_index : Int) : ProgressJson :=
  { timestamp := some ts
    total_compounds := some ids.length
    processed_count := some (current_index + 1)
    ids := some ids
    results := some results
    current_index := some current_index }

/-- `load_progress(progress_file)`: `None` when the file is absent; inside
the `try`, `json.load` raises on unreadable or malformed content and the
banner print accesses `progress['results']`, so a JSON object lacking
`results` also raises; every such exception is caught and `None`
returned.  Otherwise the parsed object is returned as is. -/
def load_progress : FileContent → Option ProgressJson
  | .missing => none
  | .unreadable => none
  | .malformedJson => none
  | .json p => match p.results with
    | none => none
    | some _ => some p

/-! ## Controller start-up (`main`, lines 161-187)

`main` loads the progress file.  With no progress it reads the input CSV
and starts at 0.  With progress it prints `processed_count`,
`total_compounds` and `timestamp` (a `KeyError` here is uncaught), asks
the operator, and on `y` adopts `ids`, `results`, `current_index` from
the checkpoint (again uncaught `KeyError` when absent) and starts at
`current_index + 1`; on anything else it reads the input CSV fresh.
The result triple is `(ids, results, start_index)`. -/

def mainStart (file : FileContent) (inputIds : List String)
    (resumeAnswerYes : Bool) :
    Except String (List String × List (Option Nat) × Int) :=
  match load_progress file with
  | none => .ok (inputIds, [], 0)
  | some p =>
    match p.processed_count, p.total_compounds, p.timestamp with
    | some _, some _, some _ =>
      if resumeAnswerYes then
        match p.ids, p.results, p.current_index with
        | some ids, some results, some ci => .ok (ids, results, ci + 1)
        | _, _, _ => .error "KeyError"
      else .ok (inputIds, [], 0)
    | _, _, _ => .error "KeyError"

/-! ## Pipeline loop (`main`, lines 197-233)

The loop state carries the growing `results` list, the snapshots handed
to `save_progress` (results list and `current_index`, in order), and the
indices for which `scrape_admet_properties` was invoked, in order.  The
fetch/extract environment is a deterministic map from compound id to the
value `scrape_admet_properties` returns for it. -/

structure LoopState where
  results : List (Option Nat)
  saves : List (List (Option Nat) × Int)
  fetched : List Nat
  deriving Repr, DecidableEq

/-- `while len(results) <= i: results.append(None)` followed by
`results[i] = result`. -/
def setPad (rs : List (Option Nat)) (i : Nat) (v : Option Nat) :
    List (Option Nat) :=
  (rs ++ List.replicate (i + 1 - rs.length) none).set i v

/-- One iteration of `for i in range(start_index, len(ids))`: fetch, store
the outcome at index `i`, and save progress when `(i + 1) % 5 == 0`. -/
def stepItem (env : String → Option Nat) (ids : List String)
    (st : LoopState) (i : Nat) : LoopState :=
  let result := env (ids.getD i "")
  let results := setPad st.results i result
  { results := results
    fetched := st.fetched ++ [i]
    saves := if (i + 1) % 5 = 0 then st.saves ++ [(results, (i : Int))]
             else st.saves }

def runItems (env : String → Option Nat) (ids : List String)
    (st : LoopState) (items : List Nat) : LoopState :=
  items.foldl (stepItem env ids) st

/-- The loop run to completion from `start_index` with the adopted
`results` list. -/
def runLoop (env : String → Option Nat) (ids : List String)
    (startIdx : Nat) (results0 : List (Option Nat)) : LoopState :=
  runItems env ids ⟨results0, [], []⟩
    (List.range' startIdx (ids.length - startIdx))

/-- The loop interrupted after `k` completed items: `KeyboardInterrupt`
is observed between items and the handler calls
`save_progress(progress_file, ids, results, len(results) - 1)`. -/
def runInterrupted (env : String → Option Nat) (ids : List String)
    (startIdx : Nat) (results0 : List (Option Nat)) (k : Nat) : LoopState :=
  let st := runItems env ids ⟨results0, [], []⟩ (List.range' startIdx k)
  { st with saves := st.saves ++ [(st.results, (st.results.length : Int) - 1)] }

/-! ## Loop lemmas -/

theorem runItems_nil (env : String → Option Nat) (ids : List String)
    (st : LoopState) : runItems env ids st [] = st := rfl

theorem runItems_cons (env : String → Option Nat) (ids : List String)
    (st : LoopState) (i : Nat) (items : List Nat) :
    runItems env ids st (i :: items) = runItems env ids (stepItem env ids st i) items := rfl

theorem set_append_len {α : Type} (l1 l2 : List α) (v : α) :
    (l1 ++ l2).set l1.length v = l1 ++ l2.set 0 v := by
  induction l1 with
  | nil => simp
  | cons c l1 ih => simp [List.set, ih]

theorem setPad_eq_append (rs : List (Option Nat)) (v : Option Nat) :
    setPad rs rs.length v = rs ++ [v] := by
  have h1 : rs.length + 1 - rs.length = 1 := by omega
  simp only [setPad, h1, List.replicate]
  rw [set_append_len]
  rfl

theorem runItems_fetched (env : String → Option Nat) (ids : List String)
    (items : List Nat) : ∀ st : LoopState,
    (runItems env ids st items).fetched = st.fetched ++ items := by
  induction items with
  | nil => intro st; simp [runItems_nil]
  | cons i items ih =>
    intro st
    rw [runItems_cons, ih]
    simp [stepItem]

theorem stepItem_results (env : String → Option Nat) (ids : List String)
    (st : LoopState) (i : Nat) (h : st.results.length = i) :
    (stepItem env ids st i).results = st.results ++ [env (ids.getD i "")] := by
  simp only [stepItem]
  rw [← h, setPad_eq_append]

theorem runItems_results (env : String → Option Nat) (ids : List String)
    (k : Nat) : ∀ (startIdx : Nat) (st : LoopState),
    st.results.length = startIdx →
    (runItems env ids st (List.range' startIdx k)).results
      = st.results ++ (List.range' startIdx k).map (fun i => env (ids.getD i "")) := by
  induction k with
  | zero => intro s st h; simp [runItems_nil]
  | succ k ih =>
    intro s st h
    rw [List.range'_succ, runItems_cons]
    have hlen : (stepItem env ids st s).results.length = s + 1 := by
      rw [stepItem_results env ids st s h]; simp [h]
    rw [ih (s + 1) _ hlen, stepItem_results env ids st s h]
    simp

theorem runItems_savesCursors (env : String → Option Nat) (ids : List String)
    (items : List Nat) : ∀ st : LoopState,
    ((runItems env ids st items).saves).map Prod.snd
      = st.saves.map Prod.snd
        ++ (items.filter (fun i => (i + 1) % 5 == 0)).map (fun i : Nat => (i : Int)) := by
  induction items with
  | nil => intro st; simp [runItems_nil]
  | cons i items ih =>
    intro st
    rw [runItems_cons, ih]
    by_cases h : (i + 1) % 5 = 0
    · simp [stepItem, h, List.filter_cons]
    · simp [stepItem, h, List.filter_cons]

theorem runItems_saves_mem (env : String → Option Nat) (ids : List String)
    (k : Nat) : ∀ (startIdx : Nat) (st : LoopState),
    st.results.length = startIdx →
    ∀ s ∈ (runItems env ids st (List.range' startIdx k)).saves,
      s ∈ st.saves
        ∨ ∃ i, startIdx ≤ i ∧ i < startIdx + k ∧ s.2 = (i : Int) ∧ s.1.length = i + 1 := by
  induction k with
  | zero =>
    intro s0 st h s hs
    rw [show List.range' s0 0 = [] from rfl, runItems_nil] at hs
    exact Or.inl hs
  | succ k ih =>
    intro s0 st h s hs
    rw [List.range'_succ, runItems_cons] at hs
    have hlen : (stepItem env ids st s0).results.length = s0 + 1 := by
      rw [stepItem_results env ids st s0 h]; simp [h]
    rcases ih (s0 + 1) _ hlen s hs with hmem | ⟨i, h1, h2, h3, h4⟩
    · simp only [stepItem] at hmem
      by_cases hc : (s0 + 1) % 5 = 0
      · simp only [hc, if_pos rfl] at hmem
        rcases List.mem_append.mp hmem with hmem' | hnew
        · exact Or.inl hmem'
        · right
          refine ⟨s0, le_refl s0, by omega, ?_, ?_⟩
          · have := List.mem_singleton.mp hnew
            rw [this]
          · have := List.mem_singleton.mp hnew
            rw [this]
            show (setPad st.results s0 (env (ids.getD s0 ""))).length = s0 + 1
            rw [← h, setPad_eq_append]
            simp [h]
      · simp only [hc, if_neg (by exact hc)] at hmem
        exact Or.inl hmem
    · exact Or.inr ⟨i, by omega, by omega, h3, h4⟩

theorem runItems_results_length (env : String → Option Nat) (ids : List String)
    (k startIdx : Nat) (st : LoopState) (h : st.results.length = startIdx) :
    (runItems env ids st (List.range' startIdx k)).results.length = startIdx + k := by
  rw [runItems_results env ids k startIdx st h]
  simp [h]

theorem resultCell_eq (results : List (Option Nat)) (i : Nat) :
    resultCell results i
      = (match results.getD i none with
         | some r => Sum.inl r
         | none => Sum.inr "Error") := by
  unfold resultCell
  by_cases h : i < results.length
  · rw [if_pos h]
  · rw [if_neg h]
    rw [List.getD_eq_default]
    omega

theorem csvDataRows_getD (ids : List String) (results : List (Option Nat))
    (i : Nat) (h : i < ids.length) :
    (csvDataRows ids results).getD i ("", Sum.inr "")
      = (ids.getD i "", resultCell results i) := by
  unfold csvDataRows
  have hlen : i < (ids.enum.map (fun p => (p.2, resultCell results p.1))).length := by
    simpa [List.enum_length] using h
  rw [List.getD_eq_getElem _ _ hlen, List.getElem_map, List.getElem_enum]
  rw [List.getD_eq_getElem _ _ h]

/-! ## Claim theorems -/

/-- C3: in every checkpoint saved by the pipeline (periodic or on
interrupt) during a run started at `startIdx` with an adopted results
list covering exactly the indices below `startIdx`, the saved results
list covers exactly the indices up to the cursor (so every index ≤ cursor
has a recorded outcome, possibly `None`/Unresolved), the cursor never
exceeds `len(identifiers) - 1`, the cursors are non-decreasing across the
successive saves of the run, and an interrupt after `k` completed items
saves a final checkpoint whose cursor is the last completed index with
outcomes present for every index up to it. -/
theorem checkpoint_saves_invariants (env : String → Option Nat) (ids : List String)
    (startIdx k : Nat) (results0 : List (Option Nat))
    (h1 : results0.length = startIdx) (h2 : startIdx + k ≤ ids.length) :
    (∀ s ∈ (runInterrupted env ids startIdx results0 k).saves,
        (s.1.length : Int) = s.2 + 1 ∧ s.2 ≤ (ids.length : Int) - 1
          ∧ ∀ j : Nat, (j : Int) ≤ s.2 → j < s.1.length)
      ∧ (((runInterrupted env ids startIdx results0 k).saves).map Prod.snd).Pairwise (· ≤ ·)
      ∧ (runInterrupted env ids startIdx results0 k).saves ≠ []
      ∧ ((runInterrupted env ids startIdx results0 k).saves.getLastD ([], 0)).2
          = (startIdx : Int) + (k : Int) - 1 := by
  have hinit : (⟨results0, [], []⟩ : LoopState).results.length = startIdx := h1
  have hlen := runItems_results_length env ids k startIdx ⟨results0, [], []⟩ hinit
  refine ⟨?_, ?_, ?_, ?_⟩
  · intro s hs
    simp only [runInterrupted] at hs
    rcases List.mem_append.mp hs with hloop | hlast
    · rcases runItems_saves_mem env ids k startIdx ⟨results0, [], []⟩ hinit s hloop with
        habs | ⟨i, hi1, hi2, hi3, hi4⟩
      · simp at habs
      · refine ⟨?_, ?_, ?_⟩
        · rw [hi3, hi4]; push_cast; ring
        · rw [hi3]; omega
        · intro j hj
          rw [hi3] at hj
          omega
    · have heq := List.mem_singleton.mp hlast
      subst heq
      dsimp only
      rw [hlen]
      refine ⟨by omega, by omega, ?_⟩
      intro j hj
      omega
  · simp only [runInterrupted, List.map_append]
    have hcur := runItems_savesCursors env ids (List.range' startIdx k) ⟨results0, [], []⟩
    rw [hcur]
    simp only [List.map_nil, List.nil_append, List.map_cons]
    rw [List.pairwise_append]
    refine ⟨?_, by simp, ?_⟩
    · refine List.Pairwise.map _ ?_ (List.Pairwise.filter _ (List.pairwise_lt_range' startIdx k))
      intro a b hab
      show (a : Int) ≤ (b : Int)
      omega
    · intro a ha b hb
      rcases List.mem_map.mp ha with ⟨i, hi, rfl⟩
      have hmem : i ∈ List.range' startIdx k := (List.mem_filter.mp hi).1
      have hilt : i < startIdx + k := by
        rcases List.mem_range'.mp hmem with ⟨j, hj, rfl⟩
        omega
      simp only [List.mem_singleton] at hb
      subst hb
      simp only [hlen]
      omega
  · simp [runInterrupted]
  · simp only [runInterrupted]
    rw [List.getLastD_concat]
    dsimp only
    rw [hlen]
    push_cast
    ring

/-- Witness for C3: a run over three identifiers starting fresh,
interrupted after two completed items, satisfies the checkpoint
invariants. -/
theorem checkpoint_saves_invariants_witness :
    ([] : List (Option Nat)).length = 0 ∧ 0 + 2 ≤ (["a", "b", "c"] : List String).length
    ∧ ((∀ s ∈ (runInterrupted (fun _ => some 1) ["a", "b", "c"] 0 [] 2).saves,
          (s.1.length : Int) = s.2 + 1 ∧ s.2 ≤ ((["a", "b", "c"] : List String).length : Int) - 1
            ∧ ∀ j : Nat, (j : Int) ≤ s.2 → j < s.1.length)
        ∧ (((runInterrupted (fun _ => some 1) ["a", "b", "c"] 0 [] 2).saves).map Prod.snd).Pairwise (· ≤ ·)
        ∧ (runInterrupted (fun _ => some 1) ["a", "b", "c"] 0 [] 2).saves ≠ []
        ∧ ((runInterrupted (fun _ => some 1) ["a", "b", "c"] 0 [] 2).saves.getLastD ([], 0)).2
            = ((0 : Nat) : Int) + ((2 : Nat) : Int) - 1) :=
  ⟨rfl, by decide,
    checkpoint_saves_invariants (fun _ => some 1) ["a", "b", "c"] 0 2 [] rfl (by decide)⟩

/-- C1: for a deterministic fetch/extract environment, interrupting a
fresh run after index `c` saves a checkpoint with cursor `c`; resuming
the controller from that checkpoint adopts the saved identifiers and
outcomes and starts at `c + 1`; the resumed run's final outcome list
equals the one of an uninterrupted run over the whole list, and the
resumed run fetches exactly the indices `c + 1 .. len - 1` (none ≤ `c`). -/
theorem idempotent_resume (env : String → Option Nat) (ids : List String)
    (c : Nat) (ts : String) (h : c < ids.length) :
    ((runInterrupted env ids 0 [] (c + 1)).saves.getLastD ([], 0)).2 = (c : Int)
      ∧ mainStart
          (FileContent.json (save_progress ts ids
            ((runInterrupted env ids 0 [] (c + 1)).saves.getLastD ([], 0)).1
            ((runInterrupted env ids 0 [] (c + 1)).saves.getLastD ([], 0)).2))
          ids true
        = Except.ok (ids, ((runInterrupted env ids 0 [] (c + 1)).saves.getLastD ([], 0)).1,
            (c : Int) + 1)
      ∧ (runLoop env ids (c + 1)
          ((runInterrupted env ids 0 [] (c + 1)).saves.getLastD ([], 0)).1).results
        = (runLoop env ids 0 []).results
      ∧ (runLoop env ids (c + 1)
          ((runInterrupted env ids 0 [] (c + 1)).saves.getLastD ([], 0)).1).fetched
        = List.range' (c + 1) (ids.length - (c + 1)) := by
  have hinit : (⟨[], [], []⟩ : LoopState).results.length = 0 := rfl
  have hlen := runItems_results_length env ids (c + 1) 0 ⟨[], [], []⟩ hinit
  have hres := runItems_results env ids (c + 1) 0 ⟨[], [], []⟩ hinit
  have hckpt : (runInterrupted env ids 0 [] (c + 1)).saves.getLastD ([], 0)
      = ((runItems env ids ⟨[], [], []⟩ (List.range' 0 (c + 1))).results,
         ((runItems env ids ⟨[], [], []⟩ (List.range' 0 (c + 1))).results.length : Int) - 1) := by
    simp only [runInterrupted]
    rw [List.getLastD_concat]
  rw [hckpt]
  have hcursor : ((runItems env ids ⟨[], [], []⟩ (List.range' 0 (c + 1))).results.length : Int) - 1
      = (c : Int) := by
    rw [hlen]; push_cast; ring
  refine ⟨hcursor, ?_, ?_, ?_⟩
  · rw [hcursor]
    simp [mainStart, load_progress, save_progress]
  · rw [runLoop]
    have hlen2 : (⟨(runItems env ids ⟨[], [], []⟩ (List.range' 0 (c + 1))).results, [], []⟩ :
        LoopState).results.length = c + 1 := by
      simpa using hlen
    rw [runItems_results env ids (ids.length - (c + 1)) (c + 1) _ hlen2]
    rw [runLoop]
    rw [runItems_results env ids (ids.length - 0) 0 ⟨[], [], []⟩ hinit]
    simp only [hres]
    rw [List.nil_append, List.nil_append, ← List.map_append]
    have hr : List.range' 0 (c + 1) ++ List.range' (c + 1) (ids.length - (c + 1))
        = List.range' 0 (ids.length - 0) := by
      have := List.range'_append 0 (c + 1) (ids.length - (c + 1)) 1
      simp only [one_mul, zero_add] at this
      rw [this]
      congr 1
      omega
    rw [hr]
  · rw [runLoop, runItems_fetched]
    simp

/-- Witness for C1: three identifiers, interrupt after index 1, resume. -/
theorem idempotent_resume_witness :
    1 < (["a", "b", "c"] : List String).length
    ∧ (((runInterrupted (fun _ => some 1) ["a", "b", "c"] 0 [] (1 + 1)).saves.getLastD ([], 0)).2 = ((1 : Nat) : Int)
      ∧ mainStart
          (FileContent.json (save_progress "t" ["a", "b", "c"]
            ((runInterrupted (fun _ => some 1) ["a", "b", "c"] 0 [] (1 + 1)).saves.getLastD ([], 0)).1
            ((runInterrupted (fun _ => some 1) ["a", "b", "c"] 0 [] (1 + 1)).saves.getLastD ([], 0)).2))
          ["a", "b", "c"] true
        = Except.ok (["a", "b", "c"],
            ((runInterrupted (fun _ => some 1) ["a", "b", "c"] 0 [] (1 + 1)).saves.getLastD ([], 0)).1,
            ((1 : Nat) : Int) + 1)
      ∧ (runLoop (fun _ => some 1) ["a", "b", "c"] (1 + 1)
          ((runInterrupted (fun _ => some 1) ["a", "b", "c"] 0 [] (1 + 1)).saves.getLastD ([], 0)).1).results
        = (runLoop (fun _ => some 1) ["a", "b", "c"] 0 []).results
      ∧ (runLoop (fun _ => some 1) ["a", "b", "c"] (1 + 1)
          ((runInterrupted (fun _ => some 1) ["a", "b", "c"] 0 [] (1 + 1)).saves.getLastD ([], 0)).1).fetched
        = List.range' (1 + 1) ((["a", "b", "c"] : List String).length - (1 + 1))) :=
  ⟨by decide, idempotent_resume (fun _ => some 1) ["a", "b", "c"] 1 "t" (by decide)⟩

/-- C2: saving a run state with `save_progress` and loading it back with
`load_progress` yields the same identifiers, outcomes and cursor. -/
theorem checkpoint_roundtrip (ts : String) (ids : List String)
    (results : List (Option Nat)) (ci : Int) :
    load_progress (FileContent.json (save_progress ts ids results ci))
      = some (save_progress ts ids results ci)
    ∧ (save_progress ts ids results ci).ids = some ids
    ∧ (save_progress ts ids results ci).results = some results
    ∧ (save_progress ts ids results ci).current_index = some ci :=
  ⟨rfl, rfl, rfl, rfl⟩

/-- Counterexample to C4: a run resumed at start index 4 over five
identifiers completes exactly one item in this run yet persists a
periodic checkpoint, although 1 is not a multiple of K = 5: the save is
triggered by the item's absolute position `(i + 1) % 5 == 0`, not by the
number of completions since the run started. -/
theorem periodic_save_not_by_count_cex :
    (runLoop (fun _ => some 0) ["a", "b", "c", "d", "e"] 4 [none, none, none, none]).fetched.length = 1
    ∧ (runLoop (fun _ => some 0) ["a", "b", "c", "d", "e"] 4 [none, none, none, none]).saves.length = 1
    ∧ ¬ (5 ∣ 1) := by decide

/-- C4 (amended): during any run, a periodic checkpoint is persisted
exactly after those items whose 1-based position in the identifier list
is a multiple of K = 5 (`(i + 1) % 5 == 0`), regardless of the number of
items the run has completed since it started. -/
theorem periodic_save_by_position (env : String → Option Nat) (ids : List String)
    (startIdx : Nat) (results0 : List (Option Nat)) :
    ((runLoop env ids startIdx results0).saves).map Prod.snd
      = ((List.range' startIdx (ids.length - startIdx)).filter
          (fun i => (i + 1) % 5 == 0)).map (fun i : Nat => (i : Int)) := by
  rw [runLoop, runItems_savesCursors]
  simp

/-- Counterexample to C5: a checkpoint whose identifier list `["IMPHY_B"]`
differs from the current input `["IMPHY_A"]` is adopted without any
validation; the resumed run silently proceeds on the checkpoint's
identifiers. -/
theorem resume_no_validation_cex :
    mainStart (FileContent.json ⟨some "t", some 1, some 1, some ["IMPHY_B"], some [some 1], some 0⟩)
        ["IMPHY_A"] true
      = Except.ok (["IMPHY_B"], [some 1], 1)
    ∧ (["IMPHY_B"] : List String) ≠ ["IMPHY_A"] := ⟨rfl, by decide⟩

/-- C5 (amended): when a run is started with a resume state, the
controller performs no consistency validation at all: whatever the
current input identifier list is, it unconditionally adopts the
checkpoint's identifiers and outcomes and starts processing at index
`cursor + 1`. -/
theorem resume_adopts_checkpoint (p : ProgressJson) (inputIds ids : List String)
    (results : List (Option Nat)) (ci : Int)
    (h1 : p.ids = some ids) (h2 : p.results = some results) (h3 : p.current_index = some ci)
    (h4 : p.processed_count.isSome = true) (h5 : p.total_compounds.isSome = true)
    (h6 : p.timestamp.isSome = true) :
    mainStart (FileContent.json p) inputIds true = Except.ok (ids, results, ci + 1) := by
  obtain ⟨pc, hpc⟩ := Option.isSome_iff_exists.mp h4
  obtain ⟨tc, htc⟩ := Option.isSome_iff_exists.mp h5
  obtain ⟨tsv, hts⟩ := Option.isSome_iff_exists.mp h6
  simp [mainStart, load_progress, h1, h2, h3, hpc, htc, hts]

/-- Witness for C5 (amended): a complete checkpoint over `["x", "y"]`
with cursor 0 is adopted although the current input is `["q"]`. -/
theorem resume_adopts_checkpoint_witness :
    (⟨some "t", some 2, some 1, some ["x", "y"], some [some 0], some 0⟩ : ProgressJson).ids = some ["x", "y"]
    ∧ (⟨some "t", some 2, some 1, some ["x", "y"], some [some 0], some 0⟩ : ProgressJson).results = some [some 0]
    ∧ (⟨some "t", some 2, some 1, some ["x", "y"], some [some 0], some 0⟩ : ProgressJson).current_index = some 0
    ∧ mainStart
        (FileContent.json ⟨some "t", some 2, some 1, some ["x", "y"], some [some 0], some 0⟩)
        ["q"] true
      = Except.ok (["x", "y"], [some 0], (0 : Int) + 1) :=
  ⟨rfl, rfl, rfl,
    resume_adopts_checkpoint ⟨some "t", some 2, some 1, some ["x", "y"], some [some 0], some 0⟩
      ["q"] ["x", "y"] [some 0] 0 rfl rfl rfl rfl rfl rfl⟩

/-- C6: the ADMET classifier is a deterministic total function of the two
extracted fields: `("No", "Low")` yields 0, `("Yes", "High")` yields 1,
and every other combination yields the default label 0 (never an
unresolved value). -/
theorem classify_admet_decision_table (p a : String) (h : ¬(p = "Yes" ∧ a = "High")) :
    classify_admet "No" "Low" = 0 ∧ classify_admet "Yes" "High" = 1
    ∧ classify_admet p a = 0 := by
  refine ⟨by decide, by decide, ?_⟩
  by_cases hA : p = "No" ∧ a = "Low"
  · simp [classify_admet, hA]
  · by_cases hB : p = "Yes" ∧ a = "High"
    · exact absurd hB h
    · simp [classify_admet, hA, hB]

/-- Witness for C6: the combination `("Yes", "Low")` yields the default
label 0. -/
theorem classify_admet_decision_table_witness :
    ¬(("Yes" : String) = "Yes" ∧ ("Low" : String) = "High")
    ∧ (classify_admet "No" "Low" = 0 ∧ classify_admet "Yes" "High" = 1
        ∧ classify_admet "Yes" "Low" = 0) :=
  ⟨by decide, classify_admet_decision_table "Yes" "Low" (by decide)⟩

/-- Counterexample to C7: a JSON object containing only a `results`
field (no cursor) is structurally invalid as a run state, yet
`load_progress` returns it instead of `None`, and the controller then
raises an uncaught `KeyError` instead of starting a fresh run. -/
theorem partial_checkpoint_not_rejected_cex :
    load_progress (FileContent.json ⟨none, none, none, none, some [], none⟩)
      = some ⟨none, none, none, none, some [], none⟩
    ∧ mainStart (FileContent.json ⟨none, none, none, none, some [], none⟩) ["IMPHY_A"] true
      = Except.error "KeyError" := ⟨rfl, rfl⟩

/-- C7 (amended): a missing, unreadable or malformed-JSON checkpoint
file, or a JSON object lacking the `results` field, makes
`load_progress` yield `None`, and with a `None` load the controller
starts a fresh run from index 0 without raising; but a JSON object that
has `results` while lacking other required fields is returned by
`load_progress` and makes the controller raise (see the
counterexample). -/
theorem malformed_checkpoint_fallback (inputIds : List String) (b : Bool)
    (p : ProgressJson) (f : FileContent) (hp : p.results = none)
    (hf : load_progress f = none) :
    load_progress FileContent.missing = none
    ∧ load_progress FileContent.unreadable = none
    ∧ load_progress FileContent.malformedJson = none
    ∧ load_progress (FileContent.json p) = none
    ∧ mainStart f inputIds b = Except.ok (inputIds, [], 0) := by
  refine ⟨rfl, rfl, rfl, ?_, ?_⟩
  · simp [load_progress, hp]
  · simp [mainStart, hf]

/-- Witness for C7 (amended): an empty JSON object and a missing file. -/
theorem malformed_checkpoint_fallback_witness :
    (⟨none, none, none, none, none, none⟩ : ProgressJson).results = none
    ∧ load_progress FileContent.missing = none
    ∧ (load_progress FileContent.missing = none
        ∧ load_progress FileContent.unreadable = none
        ∧ load_progress FileContent.malformedJson = none
        ∧ load_progress (FileContent.json ⟨none, none, none, none, none, none⟩) = none
        ∧ mainStart FileContent.missing ["IMPHY_A"] true = Except.ok (["IMPHY_A"], [], 0)) :=
  ⟨rfl, rfl,
    malformed_checkpoint_fallback ["IMPHY_A"] true ⟨none, none, none, none, none, none⟩
      FileContent.missing rfl rfl⟩

/-- C8: the Result Writer emits exactly one data row per identifier, in
input order; a row carries the numeric label when the outcome at that
index exists, and the distinct marker string `"Error"` when the outcome
is `None`/Unresolved or absent (as after a partial run with a short
results list). -/
theorem writer_rows_ordered (ids : List String) (results : List (Option Nat))
    (i : Nat) (hi : i < ids.length) :
    (csvDataRows ids results).length = ids.length
    ∧ (csvDataRows ids results).map Prod.fst = ids
    ∧ (csvDataRows ids results).getD i ("", Sum.inr "")
        = (ids.getD i "",
           match results.getD i none with
           | some r => Sum.inl r
           | none => Sum.inr "Error") := by
  refine ⟨?_, ?_, ?_⟩
  · simp [csvDataRows, List.enum_length]
  · unfold csvDataRows
    rw [List.map_map]
    exact List.enum_map_snd ids
  · rw [csvDataRows_getD ids results i hi, resultCell_eq]

/-- Witness for C8: two identifiers with a one-element results list; the
second row, beyond the results list, carries the `"Error"` marker. -/
theorem writer_rows_ordered_witness :
    1 < (["a", "b"] : List String).length
    ∧ ((csvDataRows ["a", "b"] [some 1]).length = (["a", "b"] : List String).length
      ∧ (csvDataRows ["a", "b"] [some 1]).map Prod.fst = ["a", "b"]
      ∧ (csvDataRows ["a", "b"] [some 1]).getD 1 ("", Sum.inr "")
          = ((["a", "b"] : List String).getD 1 "",
             match ([some 1] : List (Option Nat)).getD 1 none with
             | some r => Sum.inl r
             | none => Sum.inr "Error")) :=
  ⟨by decide, writer_rows_ordered ["a", "b"] [some 1] 1 (by decide)⟩

/-- Counterexample to C9: when an artifact exists at the output path and
the backup copy fails, the writer does not proceed with the write: the
exception reaches the writer's handler, which exits with status 1 and
writes nothing. -/
theorem backup_failure_fatal_cex :
    write_results_to_csv ⟨true, true, false⟩ ["IMPHY000001"] []
      = ⟨false, none, some 1⟩ := rfl

/-- C9 (amended): with an existing artifact at the output path, the
writer first copies it to the sibling backup path; but a failure of the
backup step is fatal, not non-fatal: it is caught by the writer's
general error handler, which logs it and exits the program with status 1
without writing the new artifact. -/
theorem writer_backup_behavior (env : WriterEnv) (ids : List String)
    (results : List (Option Nat)) (hex : env.outputExists = true) :
    (env.backupRaises = true →
        write_results_to_csv env ids results = ⟨false, none, some 1⟩)
    ∧ (env.backupRaises = false → env.writeRaises = false →
        write_results_to_csv env ids results
          = ⟨true, some (csvDataRows ids results), none⟩) := by
  constructor
  · intro hb
    simp [write_results_to_csv, hex, hb]
  · intro hb hw
    simp [write_results_to_csv, hex, hb, hw]

/-- Witness for C9 (amended): an existing artifact with a succeeding
backup and write. -/
theorem writer_backup_behavior_witness :
    (⟨true, false, false⟩ : WriterEnv).outputExists = true
    ∧ (((⟨true, false, false⟩ : WriterEnv).backupRaises = true →
          write_results_to_csv ⟨true, false, false⟩ ["a"] [some 0] = ⟨false, none, some 1⟩)
      ∧ ((⟨true, false, false⟩ : WriterEnv).backupRaises = false →
          (⟨true, false, false⟩ : WriterEnv).writeRaises = false →
          write_results_to_csv ⟨true, false, false⟩ ["a"] [some 0]
            = ⟨true, some (csvDataRows ["a"] [some 0]), none⟩)) :=
  ⟨rfl, writer_backup_behavior ⟨true, false, false⟩ ["a"] [some 0] rfl⟩

/-- Counterexample to C10: the source compares `value.lower()`, so the
value `"PASSED"`, which is neither `"Passed"` nor `"Failed"`, yields 1
rather than the unresolved `None` the claim requires for every value
other than those two. -/
theorem rule_of_5_case_cex :
    extract_rule_of_5 [[lipinskiLabel, "x", "PASSED"]] = some 1
    ∧ ("PASSED" : String) ≠ "Passed" ∧ ("PASSED" : String) ≠ "Failed" :=
  ⟨by decide, by decide, by decide⟩

/-- C10 (amended): the rule-of-5 extractor matches the field value
case-insensitively: on a table whose Lipinski row carries value `v`, it
returns 1 when `v.lower()` is `"passed"`, 0 when `v.lower()` is
`"failed"`, and `None`/Unresolved for every other value. -/
theorem rule_of_5_decision_table (v : String) :
    extract_rule_of_5 [[lipinskiLabel, "", v]]
      = (if strLower v = "passed" then some 1
         else if strLower v = "failed" then some 0 else none) := by
  have hc : strContains lipinskiLabel lipinskiLabel = true := by decide
  simp [extract_rule_of_5, hc]

end Imppat
